import Mathlib

/-!
Verification of the WeedAI label-acquisition pipeline.

The definitions below are a shallow embedding of the two acquisition
scripts of the repository:

* `packages/ingestion/src/ingestion/scraper.py` — the portal scraper
  (session token, paginated search walk, detail resolution, download), and
* `packages/ingestion/src/ingestion/csv_scraper.py` — the CSV-driven
  variant (dedup by active-ingredient string, direct URL construction,
  download with existence skip and 404 check).

Network and filesystem effects are made explicit: an `HttpEnv` maps a URL
to the observable outcome of a `requests.get`, and the label directory
(the Document Store) is a `Store` value threaded through each function.
Every function also returns the list of URLs it actually requested, so
that claims about "no network call" and "attempted at most once" are
statements about that trace.
-/

/-- Bytes of one streamed chunk (`iter_content(chunk_size=1024)` yields these). -/
abbrev Chunk := List Nat

/-- Outcome of a `requests.get(url, stream=True)` as observed by the scrapers:
a 2xx response with its body chunks, a 2xx response whose body transfer
faults after `written` chunks were streamed to disk, a 404, another
non-2xx status (so `raise_for_status` raises), or a network fault on the
request itself. -/
inductive HttpResponse where
  | ok (chunks : List Chunk)
  | okPartial (written : List Chunk)
  | notFound
  | httpError
  | netError
deriving DecidableEq

/-- The Document Store (`data/labels`): filename to file bytes.
A file's bytes are the concatenation of the chunks written to it. -/
abbrev Store := List (String × List Nat)

/-- The network environment: what `requests.get` yields for each URL. -/
abbrev HttpEnv := String → HttpResponse

/-- The `os.path.exists` check against the Document Store. -/
def hasFile (store : Store) (f : String) : Bool :=
  store.any (fun e => e.1 == f)

/-- Writing a file: `open(filepath, 'wb')` followed by chunk writes. -/
def storeWrite (store : Store) (f : String) (bytes : List Nat) : Store :=
  (f, bytes) :: store

/-- Filenames present in the Document Store. -/
def storeNames (store : Store) : List String :=
  store.map Prod.fst

/-- Python `str.strip()` on the character list: drop leading and trailing
whitespace. -/
def stripChars (cs : List Char) : List Char :=
  ((cs.dropWhile Char.isWhitespace).reverse.dropWhile Char.isWhitespace).reverse

/-- Python `str.strip()`. -/
def pystrip (s : String) : String :=
  String.mk (stripChars s.data)

/-- Python `str.startswith(p)`. -/
def pyStartsWith (s p : String) : Bool :=
  p.data.isPrefixOf s.data

/-- Split a character list at the first occurrence of `c`; `none` when `c`
does not occur. -/
def splitFirst (c : Char) : List Char → Option (List Char × List Char)
  | [] => none
  | x :: xs =>
    if x = c then some ([], xs)
    else
      match splitFirst c xs with
      | none => none
      | some (pre, post) => some (x :: pre, post)

/-- Leading `scheme:` of a URL, when present: the characters before the
first `:` provided they are a nonempty alphabetic run (the http/https
shapes this pipeline handles). Returns the scheme and the remainder after
the colon. -/
def schemeSplit (cs : List Char) : Option (List Char × List Char) :=
  match splitFirst ':' cs with
  | none => none
  | some (pre, post) =>
    if pre ≠ [] ∧ pre.all Char.isAlpha then some (pre, post) else none

/-- `urllib.parse.urlparse(url).path` for the http(s) URL shapes this
pipeline handles: cut the fragment and query, drop `scheme:`, and when the
remainder is `//netloc...` drop the netloc; what is left is the path. -/
def urlPathChars (cs : List Char) : List Char :=
  let cs := cs.takeWhile (fun c => c ≠ '#')
  let cs := cs.takeWhile (fun c => c ≠ '?')
  let rest :=
    match schemeSplit cs with
    | some (_, post) => post
    | none => cs
  match rest with
  | '/' :: '/' :: r => r.dropWhile (fun c => c ≠ '/')
  | r => r

/-- `urllib.parse.urlparse(url).path`. -/
def urlPath (s : String) : String :=
  String.mk (urlPathChars s.data)

/-- `os.path.basename` on the character list: everything after the last
`/`. -/
def basenameChars (cs : List Char) : List Char :=
  cs.foldl (fun acc c => if c = '/' then [] else acc ++ [c]) []

/-- `os.path.basename`. -/
def basename (s : String) : String :=
  String.mk (basenameChars s.data)

/-- `scheme://netloc` of a base URL (used by `urljoin` for host-absolute
references). -/
def urlRootChars (cs : List Char) : List Char :=
  match schemeSplit cs with
  | some (scheme, post) =>
    match post with
    | '/' :: '/' :: r => scheme ++ ':' :: '/' :: '/' :: r.takeWhile (fun c => c ≠ '/')
    | _ => scheme ++ [':']
  | none => []

/-- The base URL up to and including the last `/` (the directory part used
by `urljoin` for relative references). -/
def urlDirChars (cs : List Char) : List Char :=
  ((cs.reverse).dropWhile (fun c => c ≠ '/')).reverse

/-- `urllib.parse.urljoin(base, url)` for the http(s) URL shapes this
pipeline handles: a reference with its own scheme is kept, `//...` takes
the base scheme, `/...` is joined to `scheme://netloc` of the base, and a
relative reference is joined to the directory of the base. -/
def urljoin (base url : String) : String :=
  let b := base.data
  let u := url.data
  if u = [] then base
  else
    match schemeSplit u with
    | some _ => url
    | none =>
      match u with
      | '/' :: '/' :: _ =>
        match schemeSplit b with
        | some (scheme, _) => String.mk (scheme ++ ':' :: u)
        | none => url
      | '/' :: _ => String.mk (urlRootChars b ++ u)
      | _ => String.mk (urlDirChars b ++ u)

namespace CsvScraper

/-- Base URL of the e-labels host (`csv_scraper.BASE_URL`). -/
def BASE_URL : String := "https://elabels.apvma.gov.au/"

/-- Embeds `csv_scraper.download_pdf(pdf_url, filename)`. Returns the
boolean result, the Document Store afterwards, and the list of URLs
requested. The source checks existence first (skip as success with no
request), then issues the GET: a 404 returns `False` before
`raise_for_status`, any raised error is caught by the blanket
`except Exception` and returns `False`, and on 2xx the body is streamed to
`DOWNLOAD_DIR/filename` chunk by chunk — a transfer fault mid-body leaves
the chunks already written on disk under the final name. -/
def download_pdf (env : HttpEnv) (store : Store) (pdf_url filename : String) :
    Bool × Store × List String :=
  if hasFile store filename then (true, store, [])
  else
    match env pdf_url with
    | .notFound => (false, store, [pdf_url])
    | .netError => (false, store, [pdf_url])
    | .httpError => (false, store, [pdf_url])
    | .ok chunks => (true, storeWrite store filename chunks.flatten, [pdf_url])
    | .okPartial written => (false, storeWrite store filename written.flatten, [pdf_url])

/-- One CSV row after `row.get('Actives','')`, `row.get('No','')`,
`row.get('Name','Unknown')` have been applied. -/
structure CsvRow where
  actives : String
  no : String
  name : String
deriving DecidableEq

/-- One selected product (`{'no': ..., 'actives': ..., 'name': ...}`). -/
structure Product where
  no : String
  actives : String
  name : String
deriving DecidableEq

/-- The selected product built from a CSV row. -/
def mkProduct (r : CsvRow) : Product :=
  ⟨pystrip r.no, pystrip r.actives, r.name⟩

/-- Embeds the selection loop of `csv_scraper.process_csv`: strip the
`Actives` and `No` fields, skip the row when either is empty, and append
the product when its actives string was not seen before (`unique_actives`
is the `seen` accumulator). -/
def selectProducts : List CsvRow → List String → List Product
  | [], _ => []
  | r :: rs, seen =>
    let actives := pystrip r.actives
    let product_no := pystrip r.no
    if actives = "" ∨ product_no = "" then selectProducts rs seen
    else if actives ∈ seen then selectProducts rs seen
    else mkProduct r :: selectProducts rs (actives :: seen)

/-- The local filename derived from a selected product (`f"{product_no}ELBL.pdf"`). -/
def targetFilename (p : Product) : String :=
  p.no ++ "ELBL.pdf"

/-- The download URL derived from a selected product (`f"{BASE_URL}{filename}"`). -/
def targetUrl (p : Product) : String :=
  BASE_URL ++ targetFilename p

/-- The end-of-run counters of `process_csv` (`success_count`, `fail_count`). -/
structure Summary where
  success : Nat
  fail : Nat
deriving DecidableEq

/-- Embeds the download loop of `csv_scraper.process_csv`: for each
selected product, derive the filename and URL, call `download_pdf`, and
bump `success_count` or `fail_count` by its boolean result. -/
def runDownloads (env : HttpEnv) : Store → List Product → Summary × Store × List String
  | store, [] => (⟨0, 0⟩, store, [])
  | store, p :: ps =>
    let step := download_pdf env store (targetUrl p) (targetFilename p)
    let rest := runDownloads env step.2.1 ps
    (⟨(if step.1 then 1 else 0) + rest.1.success,
      (if step.1 then 0 else 1) + rest.1.fail⟩,
     rest.2.1, step.2.2 ++ rest.2.2)

/-- Embeds `csv_scraper.process_csv`: select the rows, then run the
download loop over them. -/
def process_csv (env : HttpEnv) (rows : List CsvRow) (store : Store) :
    Summary × Store × List String :=
  runDownloads env store (selectProducts rows [])

end CsvScraper

namespace Scraper

/-- Base URL of the portal (`scraper.BASE_URL`). -/
def BASE_URL : String := "https://portal.apvma.gov.au/"

/-- The search endpoint (`scraper.SEARCH_URL`). -/
def SEARCH_URL : String := "https://portal.apvma.gov.au/pubcris"

/-- The page cap (`scraper.MAX_PAGES = 2`; `none` models the documented
"set to None to scrape all"). -/
def MAX_PAGES : Option Nat := some 2

/-- Embeds `scraper.download_pdf(pdf_url, filename)` — no existence check
and no 404 special case here: any `requests.RequestException` (404 and
other non-2xx via `raise_for_status`, network faults, transfer faults) is
caught and yields `False`; on 2xx the chunks are streamed to the final
path, so a mid-body fault leaves the written prefix on disk. -/
def download_pdf (env : HttpEnv) (store : Store) (pdf_url filename : String) :
    Bool × Store × List String :=
  match env pdf_url with
  | .notFound => (false, store, [pdf_url])
  | .netError => (false, store, [pdf_url])
  | .httpError => (false, store, [pdf_url])
  | .ok chunks => (true, storeWrite store filename chunks.flatten, [pdf_url])
  | .okPartial written => (false, storeWrite store filename written.flatten, [pdf_url])

/-- One search-results page as the walker sees it: a request-level failure,
a page without the results table, or the table's `tr` rows where each row
is the href of its first cell's first anchor (when that cell and anchor
exist). The first row is the header. -/
inductive SearchResponse where
  | err
  | noTable
  | table (rows : List (Option String))
deriving DecidableEq

/-- The search environment: what the POST for each page number returns. -/
abbrev SearchEnv := Nat → SearchResponse

/-- Embeds the row loop of `scrape_labels`: each data row's link is added
to `product_links_found` when not already present, counting the new links
on this page. Returns the accumulated links and `new_links_on_page`. -/
def addRows : List String → List (Option String) → List String × Nat
  | acc, [] => (acc, 0)
  | acc, none :: rs => addRows acc rs
  | acc, some l :: rs =>
    if l ∈ acc then addRows acc rs
    else
      let r := addRows (acc ++ [l]) rs
      (r.1, r.2 + 1)

/-- Embeds `if MAX_PAGES and current_page >= MAX_PAGES` (Python truthiness:
`None` and `0` are falsy). -/
def maxReached (mp : Option Nat) (page : Nat) : Bool :=
  match mp with
  | none => false
  | some m => decide (m ≠ 0) && decide (m ≤ page)

/-- Embeds the `while True` search walk of `scrape_labels` from a given
page and accumulated link set, with fuel bounding the number of
iterations. Returns the accumulated links and the list of page numbers
that were requested. Breaks, in source order: request failure, no results
table, header-only table, zero new links beyond page 1, page cap. -/
def walkFrom (senv : SearchEnv) (mp : Option Nat) :
    Nat → List String → Nat → List String × List Nat
  | _, acc, 0 => (acc, [])
  | page, acc, fuel + 1 =>
    match senv page with
    | .err => (acc, [page])
    | .noTable => (acc, [page])
    | .table rows =>
      if rows.length ≤ 1 then (acc, [page])
      else
        let a := addRows acc (rows.drop 1)
        if a.2 = 0 ∧ 1 < page then (a.1, [page])
        else if maxReached mp page then (a.1, [page])
        else
          let r := walkFrom senv mp (page + 1) a.1 fuel
          (r.1, page :: r.2)

/-- The full search walk, from page 1 with an empty link set. -/
def walk (senv : SearchEnv) (mp : Option Nat) (fuel : Nat) : List String × List Nat :=
  walkFrom senv mp 1 [] fuel

/-- The product links present on one search response: the hrefs of the
data rows of a table that has more than the header row; no links
otherwise. -/
def pageLinks : SearchResponse → List String
  | .table rows => if 1 < rows.length then (rows.drop 1).filterMap id else []
  | _ => []

/-- `new_links_on_page` that the walker computes at `page` when the
accumulated set is `acc` (zero when the page has no processable table). -/
def newLinksAt (senv : SearchEnv) (page : Nat) (acc : List String) : Nat :=
  match senv page with
  | .table rows => if 1 < rows.length then (addRows acc (rows.drop 1)).2 else 0
  | _ => 0

/-- One product detail page as the per-product loop sees it: a
request-level failure, or the page with the href of the anchor whose text
is `e-label` when that anchor exists. -/
inductive PageFetch where
  | err
  | page (elabel : Option String)
deriving DecidableEq

/-- The detail environment: what the GET for each product URL returns. -/
abbrev DetailEnv := String → PageFetch

/-- Embeds the URL cleanup and filename derivation of `scrape_labels`
for an e-label href: join against `BASE_URL` unless the href starts with
`http`, then take `os.path.basename(urlparse(pdf_url).path)`. Returns
`(pdf_url, pdf_filename)`. -/
def resolve_pdf (href : String) : String × String :=
  let pdf_url := if pyStartsWith href "http" then href else urljoin BASE_URL href
  (pdf_url, basename (urlPath pdf_url))

/-- Embeds one iteration of the per-product loop of `scrape_labels`: fetch
the detail page (a `RequestException` is caught and the loop continues),
look for the `e-label` anchor with a non-empty href, resolve the URL and
filename, and call `download_pdf` unless the file already exists. Returns
the Document Store afterwards and the download URLs requested. -/
def processProduct (denv : DetailEnv) (fenv : HttpEnv) (store : Store)
    (product_url : String) : Store × List String :=
  match denv product_url with
  | .err => (store, [])
  | .page none => (store, [])
  | .page (some href) =>
    if href = "" then (store, [])
    else
      let t := resolve_pdf href
      if hasFile store t.2 then (store, [])
      else
        let d := download_pdf fenv store t.1 t.2
        (d.2.1, d.2.2)

/-- Embeds the per-product loop of `scrape_labels` over the collected
links. Returns the Document Store, the product URLs whose detail pages
were requested, and the download URLs requested. -/
def processProducts (denv : DetailEnv) (fenv : HttpEnv) :
    Store → List String → Store × List String × List String
  | store, [] => (store, [], [])
  | store, u :: us =>
    let s := processProduct denv fenv store u
    let rest := processProducts denv fenv s.1 us
    (rest.1, u :: rest.2.1, s.2 ++ rest.2.2)

/-- The initial GET of the search landing page as `get_session_params`
sees it: a request-level failure (network fault or non-2xx via
`raise_for_status`), or the parsed page with the value of the hidden
`p_auth` input when that input exists. -/
inductive InitialFetch where
  | err
  | page (p_auth : Option String)
deriving DecidableEq

/-- Embeds `scraper.get_session_params`: a `RequestException` is caught
and `None` is returned; a page without the `p_auth` input raises a
`ValueError` that no caller catches (modelled as `Except.error` with the
message); otherwise the input's value is returned. -/
def get_session_params : InitialFetch → Except String (Option String)
  | .err => .ok none
  | .page none => .error "Could not find p_auth token on the page. The site structure may have changed."
  | .page (some v) => .ok (some v)

/-- How a run of `scrape_labels` ends: aborted by an uncaught exception,
returned early because no `p_auth` token was obtained, or completed with
the token that was used. -/
inductive RunOutcome where
  | aborted (msg : String)
  | noAuth
  | completed (token : String)
deriving DecidableEq

/-- The observable result of a `scrape_labels` run: how it ended, the
collected product links, the search pages requested, the detail pages
requested, the download URLs requested, and the Document Store. -/
structure RunResult where
  outcome : RunOutcome
  links : List String
  searchTrace : List Nat
  detailTrace : List String
  downloadTrace : List String
  store : Store
deriving DecidableEq

/-- Embeds `scraper.scrape_labels`: obtain the session token (an uncaught
`ValueError` aborts the run; `if not p_auth: return` is Python truthiness,
so both a `None` token and an empty-string token value return at once),
walk the search pages with `MAX_PAGES`, then run the per-product loop over
the collected links. -/
def scrape_labels (ienv : InitialFetch) (senv : SearchEnv) (denv : DetailEnv)
    (fenv : HttpEnv) (store₀ : Store) (fuel : Nat) : RunResult :=
  match get_session_params ienv with
  | .error msg => ⟨.aborted msg, [], [], [], [], store₀⟩
  | .ok none => ⟨.noAuth, [], [], [], [], store₀⟩
  | .ok (some tok) =>
    if tok = "" then ⟨.noAuth, [], [], [], [], store₀⟩
    else
      let w := walk senv MAX_PAGES fuel
      let pr := processProducts denv fenv store₀ w.1
      ⟨.completed tok, w.1, w.2, pr.2.1, pr.2.2, pr.1⟩

end Scraper

/-- A network on which every GET yields 404. -/
def env404 : HttpEnv := fun _ => .notFound

/-- A network on which every GET raises a request-level fault. -/
def envNet : HttpEnv := fun _ => .netError

/-- A network on which every GET yields a non-2xx, non-404 status. -/
def envHttp : HttpEnv := fun _ => .httpError

/-- A network on which every GET yields 2xx but the transfer faults after
the first chunk `[1, 2]` was written. -/
def envPart : HttpEnv := fun _ => .okPartial [[1, 2]]

/-- A network on which every GET yields 2xx with body chunks `[1, 2]` and
`[3, 4]`. -/
def envFull : HttpEnv := fun _ => .ok [[1, 2], [3, 4]]

/-- A network on which every GET yields 2xx with the one-chunk body `[9]`. -/
def envOk9 : HttpEnv := fun _ => .ok [[9]]

/-- Two CSV rows with distinct `Actives` strings but the same product `No`,
so both are selected and both derive the same download target. -/
def rowsSameNo : List CsvScraper.CsvRow := [⟨"A", "1", "x"⟩, ⟨"B", "1", "y"⟩]

/-- The download URL both rows of `rowsSameNo` derive. -/
def urlNo1 : String := "https://elabels.apvma.gov.au/1ELBL.pdf"

/-- A download URL used in concrete download runs. -/
def urlNo7 : String := "https://elabels.apvma.gov.au/7ELBL.pdf"

/-- A single valid CSV row. -/
def rowsOne : List CsvScraper.CsvRow := [⟨"G", "9", "n"⟩]

/-- A CSV with an empty-`Actives` row, an empty-`No` row, two valid rows
sharing the actives string `A`, and a valid `B` row reusing `No` 7. -/
def rowsMixed : List CsvScraper.CsvRow :=
  [⟨"", "5", "a"⟩, ⟨"A", "", "b"⟩, ⟨"A", "7", "c"⟩, ⟨"A", "8", "d"⟩, ⟨"B", "7", "e"⟩]

/-- A search server that answers every page with the same single data row
linking to `a`. -/
def senvRep : Scraper.SearchEnv := fun _ => .table [none, some "a"]

/-- A search server whose first page has data rows `a`, `b` and whose later
pages repeat the row `a`. -/
def senvTwo : Scraper.SearchEnv := fun p =>
  if p = 1 then .table [none, some "a", some "b"] else .table [none, some "a"]

/-- Two product links: the detail fetch fails for `pA`, while `pB` has an
e-label anchor with a host-relative href. -/
def links9 : List String := ["pA", "pB"]

/-- The detail environment for `links9`. -/
def denv9 : Scraper.DetailEnv := fun u =>
  if u = "pB" then .page (some "/files/b.pdf") else .err

/-- A one-file store used to exercise the existence skip. -/
def storeOne : Store := [("f.pdf", [1])]

/-- Claim C1, counterexample: on `rowsSameNo` (distinct actives, same
product number) with a 404-answering network, `process_csv` issues two
network requests for the same DownloadTarget `urlNo1` in a single run, so
a DownloadTarget is not attempted at most once per run. -/
theorem c1_counterexample :
    (CsvScraper.process_csv env404 rowsSameNo []).2.2 = [urlNo1, urlNo1] ∧
    1 < ((CsvScraper.process_csv env404 rowsSameNo []).2.2).count urlNo1 := by
  decide

/-- Claim C2, counterexample: the fetch outcome on a 404 is the very value
the fetch yields on a network fault — `(false, unchanged store, one
request)` — so there is no `NotFound` outcome distinct from `Failed`. -/
theorem c2_counterexample :
    CsvScraper.download_pdf env404 [] urlNo7 "7ELBL.pdf" = (false, [], [urlNo7]) ∧
    CsvScraper.download_pdf envNet [] urlNo7 "7ELBL.pdf" = (false, [], [urlNo7]) := by
  decide

/-- Claim C3: when a 2xx body transfer faults after the first chunk, both
downloaders leave the truncated bytes `[1, 2]` in the Document Store under
the target's final name (the full body would have been `[1, 2, 3, 4]`);
nothing is written to a temporary path and renamed. -/
theorem c3_truncated_final_name :
    CsvScraper.download_pdf envPart [] urlNo7 "7ELBL.pdf"
      = (false, [("7ELBL.pdf", [1, 2])], [urlNo7]) ∧
    Scraper.download_pdf envPart [] urlNo7 "7ELBL.pdf"
      = (false, [("7ELBL.pdf", [1, 2])], [urlNo7]) ∧
    CsvScraper.download_pdf envFull [] urlNo7 "7ELBL.pdf"
      = (true, [("7ELBL.pdf", [1, 2, 3, 4])], [urlNo7]) :=
  ⟨rfl, rfl, rfl⟩

/-- Claim C6, counterexample: a run whose single fetch receives a 404 ends
with the same summary as a run whose single fetch fails with a non-404
HTTP error — both are `⟨success 0, fail 1⟩` — so the run summary has no
`skippedNotFound` count separate from `failed`, and no four-count shape. -/
theorem c6_counterexample :
    (CsvScraper.process_csv env404 rowsOne []).1 = (CsvScraper.process_csv envHttp rowsOne []).1 ∧
    (CsvScraper.process_csv env404 rowsOne []).1 = ⟨0, 1⟩ := by
  decide

/-- The request trace of one CSV `download_pdf` call is empty (existence
skip) or exactly the one requested URL. -/
theorem csv_download_pdf_requests (env : HttpEnv) (store : Store) (u f : String) :
    (CsvScraper.download_pdf env store u f).2.2 = [] ∨
    (CsvScraper.download_pdf env store u f).2.2 = [u] := by
  unfold CsvScraper.download_pdf
  by_cases h : hasFile store f
  · simp [h]
  · cases henv : env u <;> simp [h, henv]

/-- The URLs requested by the CSV download loop form a sublist of the
selected products' target URLs, in order. -/
theorem runDownloads_requests_sublist (env : HttpEnv) (store : Store)
    (ps : List CsvScraper.Product) :
    List.Sublist (CsvScraper.runDownloads env store ps).2.2
      (ps.map CsvScraper.targetUrl) := by
  induction ps generalizing store with
  | nil => simp [CsvScraper.runDownloads]
  | cons p ps ih =>
    have h2 : (CsvScraper.runDownloads env store (p :: ps)).2.2
        = (CsvScraper.download_pdf env store (CsvScraper.targetUrl p)
            (CsvScraper.targetFilename p)).2.2
          ++ (CsvScraper.runDownloads env
              (CsvScraper.download_pdf env store (CsvScraper.targetUrl p)
                (CsvScraper.targetFilename p)).2.1 ps).2.2 := rfl
    rw [h2, List.map_cons]
    rcases csv_download_pdf_requests env store (CsvScraper.targetUrl p)
        (CsvScraper.targetFilename p) with h | h <;> rw [h]
    · exact List.Sublist.cons _ (by simpa using ih _)
    · exact List.Sublist.cons₂ _ (ih _)

/-- Claim C1 (amended): a fetch whose local file already exists returns
success at once with no network request and an unchanged Document Store —
both in the CSV downloader and in the portal per-product step — and
whenever the selected items derive pairwise-distinct target URLs, no URL
is requested more than once in a run of the download loop. -/
theorem c1_skip_if_exists :
    (∀ (env : HttpEnv) (store : Store) (u f : String), hasFile store f = true →
      CsvScraper.download_pdf env store u f = (true, store, [])) ∧
    (∀ (denv : Scraper.DetailEnv) (fenv : HttpEnv) (store : Store) (purl href : String),
      denv purl = .page (some href) → href ≠ "" →
      hasFile store (Scraper.resolve_pdf href).2 = true →
      Scraper.processProduct denv fenv store purl = (store, [])) ∧
    (∀ (env : HttpEnv) (store : Store) (ps : List CsvScraper.Product),
      (ps.map CsvScraper.targetUrl).Nodup →
      ∀ u, ((CsvScraper.runDownloads env store ps).2.2).count u ≤ 1) := by
  refine ⟨?_, ?_, ?_⟩
  · intro env store u f h
    simp [CsvScraper.download_pdf, h]
  · intro denv fenv store purl href h1 h2 h3
    simp [Scraper.processProduct, h1, h2, h3]
  · intro env store ps hnd u
    exact List.nodup_iff_count_le_one.mp
      ((runDownloads_requests_sublist env store ps).nodup hnd) u

/-- Witness for claim C1: the skip runs on a store that already holds the
file, and the at-most-once bound runs on a one-product list. -/
theorem c1_skip_if_exists_witness :
    hasFile storeOne "f.pdf" = true ∧
    CsvScraper.download_pdf envNet storeOne "u" "f.pdf" = (true, storeOne, []) ∧
    (([⟨"9", "G", "n"⟩] : List CsvScraper.Product).map CsvScraper.targetUrl).Nodup ∧
    ((CsvScraper.runDownloads envNet [] [⟨"9", "G", "n"⟩]).2.2).count urlNo7 ≤ 1 :=
  ⟨by decide, c1_skip_if_exists.1 envNet storeOne "u" "f.pdf" (by decide),
   by decide, c1_skip_if_exists.2.2 envNet [] [⟨"9", "G", "n"⟩] (by decide) urlNo7⟩

/-- Claim C2 (amended): a fetch receiving 404 raises nothing, creates no
file, and returns the failure value `false` — the same value as `Failed` —
after one network request; in the run loop that outcome bumps the single
`fail` counter, not a separate not-found counter. -/
theorem c2_notfound_behavior :
    (∀ (env : HttpEnv) (store : Store) (u f : String),
      hasFile store f = false → env u = .notFound →
      CsvScraper.download_pdf env store u f = (false, store, [u])) ∧
    (∀ (env : HttpEnv) (store : Store) (p : CsvScraper.Product)
        (ps : List CsvScraper.Product),
      hasFile store (CsvScraper.targetFilename p) = false →
      env (CsvScraper.targetUrl p) = .notFound →
      (CsvScraper.runDownloads env store (p :: ps)).1.fail
        = 1 + (CsvScraper.runDownloads env store ps).1.fail ∧
      (CsvScraper.runDownloads env store (p :: ps)).1.success
        = (CsvScraper.runDownloads env store ps).1.success) := by
  have base : ∀ (env : HttpEnv) (store : Store) (u f : String),
      hasFile store f = false → env u = .notFound →
      CsvScraper.download_pdf env store u f = (false, store, [u]) := by
    intro env store u f h1 h2
    simp [CsvScraper.download_pdf, h1, h2]
  refine ⟨base, ?_⟩
  intro env store p ps h1 h2
  have hd := base env store (CsvScraper.targetUrl p) (CsvScraper.targetFilename p) h1 h2
  simp only [CsvScraper.runDownloads, hd]
  simp

/-- Witness for claim C2: a 404 fetch of a fresh file on an empty store. -/
theorem c2_notfound_behavior_witness :
    hasFile [] "9ELBL.pdf" = false ∧
    env404 "https://elabels.apvma.gov.au/9ELBL.pdf" = .notFound ∧
    CsvScraper.download_pdf env404 [] "https://elabels.apvma.gov.au/9ELBL.pdf" "9ELBL.pdf"
      = (false, [], ["https://elabels.apvma.gov.au/9ELBL.pdf"]) ∧
    (CsvScraper.runDownloads env404 [] [⟨"9", "G", "n"⟩]).1.fail
      = 1 + (CsvScraper.runDownloads env404 [] ([] : List CsvScraper.Product)).1.fail :=
  ⟨by decide, rfl,
   c2_notfound_behavior.1 env404 [] "https://elabels.apvma.gov.au/9ELBL.pdf" "9ELBL.pdf"
     (by decide) rfl,
   (c2_notfound_behavior.2 env404 [] ⟨"9", "G", "n"⟩ [] (by decide) rfl).1⟩

/-- Every selected product is counted in exactly one of the two counters:
success plus fail equals the number of products the loop was given. -/
theorem runDownloads_totals (env : HttpEnv) (ps : List CsvScraper.Product)
    (store : Store) :
    (CsvScraper.runDownloads env store ps).1.success
      + (CsvScraper.runDownloads env store ps).1.fail = ps.length := by
  induction ps generalizing store with
  | nil => simp [CsvScraper.runDownloads]
  | cons p ps ih =>
    simp only [CsvScraper.runDownloads, List.length_cons]
    cases hb : (CsvScraper.download_pdf env store (CsvScraper.targetUrl p)
        (CsvScraper.targetFilename p)).1 <;>
      simp [hb] <;>
      rw [← ih ((CsvScraper.download_pdf env store (CsvScraper.targetUrl p)
        (CsvScraper.targetFilename p)).2.1)] <;> omega

/-- Claim C6 (amended): the CSV driver aggregates exactly two counters,
and every selected item is reflected in them — success plus fail equals
the number of selected items, whatever the network does, so every
per-item failure is caught at the item boundary and counted. -/
theorem c6_two_counter_summary (env : HttpEnv) (rows : List CsvScraper.CsvRow)
    (store : Store) :
    (CsvScraper.process_csv env rows store).1.success
      + (CsvScraper.process_csv env rows store).1.fail
      = (CsvScraper.selectProducts rows []).length :=
  runDownloads_totals env (CsvScraper.selectProducts rows []) store

/-- When a page contributes zero new links, the row loop leaves the
accumulated link set unchanged. -/
theorem addRows_eq_of_zero (rs : List (Option String)) (acc : List String)
    (h : (Scraper.addRows acc rs).2 = 0) : (Scraper.addRows acc rs).1 = acc := by
  induction rs generalizing acc with
  | nil => rfl
  | cons r rs ih =>
    cases r with
    | none =>
      simp only [Scraper.addRows] at h ⊢
      exact ih acc h
    | some x =>
      by_cases hm : x ∈ acc
      · simp only [Scraper.addRows, if_pos hm] at h ⊢
        exact ih acc h
      · simp [Scraper.addRows, if_neg hm] at h

/-- Claim C4: from any walker state at a page beyond the first whose
response contributes zero links not already in the accumulated set, the
walk requests that page only — it terminates there with the set unchanged
and never issues a request for the next page. -/
theorem c4_no_new_links_terminates (senv : Scraper.SearchEnv) (mp : Option Nat)
    (page : Nat) (acc : List String) (fuel : Nat) (hp : 1 < page) (hf : 0 < fuel)
    (hz : Scraper.newLinksAt senv page acc = 0) :
    Scraper.walkFrom senv mp page acc fuel = (acc, [page]) := by
  obtain ⟨f, rfl⟩ : ∃ f, fuel = f + 1 := ⟨fuel - 1, by omega⟩
  cases hs : senv page with
  | err => simp [Scraper.walkFrom, hs]
  | noTable => simp [Scraper.walkFrom, hs]
  | table rows =>
    simp only [Scraper.newLinksAt, hs] at hz
    by_cases hlen : rows.length ≤ 1
    · simp [Scraper.walkFrom, hs, hlen]
    · have hlt : 1 < rows.length := by omega
      rw [if_pos hlt] at hz
      have hacc := addRows_eq_of_zero (rows.drop 1) acc hz
      rw [List.drop_one] at hz hacc
      simp [Scraper.walkFrom, hs, hlen, hz, hp, hacc]

/-- Witness for claim C4: a server that repeats the same single-row page;
at page 2 with the link already collected, the walk stops at page 2. -/
theorem c4_no_new_links_terminates_witness :
    1 < 2 ∧ 0 < 5 ∧ Scraper.newLinksAt senvRep 2 ["a"] = 0 ∧
    Scraper.walkFrom senvRep none 2 ["a"] 5 = (["a"], [2]) :=
  ⟨by decide, by decide, by decide,
   c4_no_new_links_terminates senvRep none 2 ["a"] 5 (by decide) (by decide) (by decide)⟩

/-- Membership in the link set after one page's row loop: a link is there
when it was already accumulated or occurs in one of the page's data rows. -/
theorem addRows_mem (rs : List (Option String)) (acc : List String) (l : String) :
    l ∈ (Scraper.addRows acc rs).1 ↔ l ∈ acc ∨ some l ∈ rs := by
  induction rs generalizing acc with
  | nil => simp [Scraper.addRows]
  | cons r rs ih =>
    cases r with
    | none =>
      simp only [Scraper.addRows]
      rw [ih]
      simp
    | some x =>
      by_cases hm : x ∈ acc
      · simp only [Scraper.addRows, if_pos hm]
        rw [ih]
        by_cases hlx : l = x
        · subst hlx; simp [hm]
        · simp [hlx]
      · simp only [Scraper.addRows, if_neg hm]
        rw [ih]
        simp [List.mem_append, or_assoc]

/-- The row loop preserves distinctness of the accumulated link set. -/
theorem addRows_nodup (rs : List (Option String)) (acc : List String)
    (h : acc.Nodup) : (Scraper.addRows acc rs).1.Nodup := by
  induction rs generalizing acc with
  | nil => exact h
  | cons r rs ih =>
    cases r with
    | none => simp only [Scraper.addRows]; exact ih acc h
    | some x =>
      by_cases hm : x ∈ acc
      · simp only [Scraper.addRows, if_pos hm]; exact ih acc h
      · simp only [Scraper.addRows, if_neg hm]
        exact ih (acc ++ [x]) (by simp [List.nodup_append, h, hm])

/-- The walker never drops distinctness: starting from a duplicate-free
accumulated set, the final link set is duplicate-free. -/
theorem walkFrom_nodup (senv : Scraper.SearchEnv) (mp : Option Nat) (fuel : Nat) :
    ∀ (page : Nat) (acc : List String), acc.Nodup →
      (Scraper.walkFrom senv mp page acc fuel).1.Nodup := by
  induction fuel with
  | zero => intro page acc h; exact h
  | succ f ih =>
    intro page acc h
    cases hs : senv page with
    | err => simpa [Scraper.walkFrom, hs] using h
    | noTable => simpa [Scraper.walkFrom, hs] using h
    | table rows =>
      by_cases hlen : rows.length ≤ 1
      · simpa [Scraper.walkFrom, hs, hlen] using h
      · by_cases hz : (Scraper.addRows acc rows.tail).2 = 0 ∧ 1 < page
        · simpa [Scraper.walkFrom, hs, hlen, hz] using
            addRows_nodup rows.tail acc h
        · by_cases hmx : Scraper.maxReached mp page
          · simpa [Scraper.walkFrom, hs, hlen, hz, hmx] using
              addRows_nodup rows.tail acc h
          · simpa [Scraper.walkFrom, hs, hlen, hz, hmx] using
              ih (page + 1) (Scraper.addRows acc rows.tail).1
                (addRows_nodup rows.tail acc h)

/-- A link is in the walker's final set exactly when it was accumulated
before or occurs on one of the pages the walk requested and processed. -/
theorem walkFrom_mem (senv : Scraper.SearchEnv) (mp : Option Nat) (fuel : Nat) :
    ∀ (page : Nat) (acc : List String) (l : String),
      l ∈ (Scraper.walkFrom senv mp page acc fuel).1 ↔
        l ∈ acc ∨ ∃ N ∈ (Scraper.walkFrom senv mp page acc fuel).2,
          l ∈ Scraper.pageLinks (senv N) := by
  induction fuel with
  | zero => intro page acc l; simp [Scraper.walkFrom]
  | succ f ih =>
    intro page acc l
    cases hs : senv page with
    | err => simp [Scraper.walkFrom, hs, Scraper.pageLinks]
    | noTable => simp [Scraper.walkFrom, hs, Scraper.pageLinks]
    | table rows =>
      by_cases hlen : rows.length ≤ 1
      · have hlen2 : ¬ 1 < rows.length := by omega
        simp [Scraper.walkFrom, hs, hlen, Scraper.pageLinks, hlen2]
      · have hlen2 : 1 < rows.length := by omega
        have hpl : Scraper.pageLinks (senv page) = List.filterMap id rows.tail := by
          rw [hs]
          simp [Scraper.pageLinks, hlen2, List.drop_one]
        have hmem : ∀ x : String, x ∈ Scraper.pageLinks (senv page) ↔ some x ∈ rows.tail := by
          intro x
          rw [hpl]
          simp [List.mem_filterMap]
        by_cases hz : (Scraper.addRows acc rows.tail).2 = 0 ∧ 1 < page
        · have heq : Scraper.walkFrom senv mp page acc (f + 1)
              = ((Scraper.addRows acc rows.tail).1, [page]) := by
            simp [Scraper.walkFrom, hs, hlen, hz]
          rw [heq, addRows_mem rows.tail acc l]
          simp [hmem l]
        · by_cases hmx : Scraper.maxReached mp page
          · have heq : Scraper.walkFrom senv mp page acc (f + 1)
                = ((Scraper.addRows acc rows.tail).1, [page]) := by
              simp [Scraper.walkFrom, hs, hlen, hz, hmx]
            rw [heq, addRows_mem rows.tail acc l]
            simp [hmem l]
          · have heq : Scraper.walkFrom senv mp page acc (f + 1)
                = ((Scraper.walkFrom senv mp (page + 1)
                      (Scraper.addRows acc rows.tail).1 f).1,
                   page :: (Scraper.walkFrom senv mp (page + 1)
                      (Scraper.addRows acc rows.tail).1 f).2) := by
              simp [Scraper.walkFrom, hs, hlen, hz, hmx]
            rw [heq]
            simp only [List.mem_cons]
            rw [ih (page + 1) (Scraper.addRows acc rows.tail).1 l,
              addRows_mem rows.tail acc l]
            constructor
            · rintro (⟨h | h⟩ | ⟨N, hN, hNl⟩)
              · exact Or.inl h
              · exact Or.inr ⟨page, Or.inl rfl, (hmem l).mpr h⟩
              · exact Or.inr ⟨N, Or.inr hN, hNl⟩
            · rintro (h | ⟨N, hN | hN, hNl⟩)
              · exact Or.inl (Or.inl h)
              · subst hN
                exact Or.inl (Or.inr ((hmem l).mp hNl))
              · exact Or.inr ⟨N, hN, hNl⟩

/-- Claim C5: across any sequence of search-result pages, repeated links
included, the accumulated ProductLink set is duplicate-free, holds exactly
the links of the pages the walk processed, and contains each of its links
exactly once. -/
theorem c5_link_set_dedup (senv : Scraper.SearchEnv) (mp : Option Nat) (fuel : Nat) :
    (Scraper.walk senv mp fuel).1.Nodup ∧
    ∀ l : String,
      (l ∈ (Scraper.walk senv mp fuel).1 ↔
        ∃ N ∈ (Scraper.walk senv mp fuel).2, l ∈ Scraper.pageLinks (senv N)) ∧
      (l ∈ (Scraper.walk senv mp fuel).1 →
        ((Scraper.walk senv mp fuel).1).count l = 1) := by
  simp only [Scraper.walk]
  have hnd := walkFrom_nodup senv mp fuel 1 [] List.nodup_nil
  refine ⟨hnd, fun l => ⟨?_, fun hm => List.count_eq_one_of_mem hnd hm⟩⟩
  simpa using walkFrom_mem senv mp fuel 1 [] l

/-- Witness for claim C5: on a server whose second page repeats a link of
the first, the collected set holds the link once. -/
theorem c5_link_set_dedup_witness :
    "a" ∈ (Scraper.walk senvTwo (some 3) 5).1 ∧
    ((Scraper.walk senvTwo (some 3) 5).1).count "a" = 1 :=
  ⟨by decide, ((c5_link_set_dedup senvTwo (some 3) 5).2 "a").2 (by decide)⟩

/-- The basename fold passes over a slash-free suffix by appending it. -/
theorem foldl_basename_no_slash : ∀ (seg acc : List Char), '/' ∉ seg →
    List.foldl (fun a c => if c = '/' then [] else a ++ [c]) acc seg = acc ++ seg
  | [], acc, _ => by simp
  | c :: cs, acc, h => by
    have hc : ¬ c = '/' := fun hh => h (hh ▸ List.mem_cons_self c cs)
    have hcs : '/' ∉ cs := fun hh => h (List.mem_cons_of_mem c hh)
    rw [List.foldl_cons]
    simp only [if_neg hc]
    rw [foldl_basename_no_slash cs (acc ++ [c]) hcs]
    simp

/-- The basename of a path is its last segment: everything after the final
slash. -/
theorem basenameChars_append_slash (pre seg : List Char) (h : '/' ∉ seg) :
    basenameChars (pre ++ '/' :: seg) = seg := by
  unfold basenameChars
  rw [List.foldl_append, List.foldl_cons]
  rw [if_pos rfl, foldl_basename_no_slash seg [] h]
  simp

/-- Claim C7: the DownloadTarget filename is the last path segment of the
resolved document URL — `https://host/files/ABC123.pdf` yields
`ABC123.pdf` — a relative href is joined against the base URL —
`/files/ABC123.pdf` on `https://host/` yields
`https://host/files/ABC123.pdf`, and through the resolver on the portal
base it yields `https://portal.apvma.gov.au/files/ABC123.pdf` — and in
general the basename of a path ending in a slash-free segment is exactly
that segment. -/
theorem c7_filename_derivation :
    Scraper.resolve_pdf "https://host/files/ABC123.pdf"
      = ("https://host/files/ABC123.pdf", "ABC123.pdf") ∧
    urljoin "https://host/" "/files/ABC123.pdf" = "https://host/files/ABC123.pdf" ∧
    Scraper.resolve_pdf "/files/ABC123.pdf"
      = ("https://portal.apvma.gov.au/files/ABC123.pdf", "ABC123.pdf") ∧
    ∀ pre seg : List Char, '/' ∉ seg → basenameChars (pre ++ '/' :: seg) = seg :=
  ⟨by decide, by decide, by decide,
   fun pre seg h => basenameChars_append_slash pre seg h⟩

/-- Witness for claim C7: the last-segment law applied to a concrete
slash-free segment. -/
theorem c7_filename_derivation_witness :
    ('/' ∉ ['c', '.', 'p']) ∧
    basenameChars (['a', 'b'] ++ '/' :: ['c', '.', 'p']) = ['c', '.', 'p'] :=
  ⟨by decide, c7_filename_derivation.2.2.2 ['a', 'b'] ['c', '.', 'p'] (by decide)⟩

/-- Claim C8: a landing page without the hidden token field aborts the
whole run through the uncaught error, a failed initial request ends the
run at once, and in both cases — as well as for a falsy empty-string token
value — no search page, detail page, or download is requested and the
store is untouched; the resolver itself returns the field's value whenever
the field is present, and a run with a non-empty token value completes
carrying exactly that token. -/
theorem c8_auth_failure_aborts :
    (∀ (senv : Scraper.SearchEnv) (denv : Scraper.DetailEnv) (fenv : HttpEnv)
        (st : Store) (fuel : Nat),
      Scraper.scrape_labels (.page none) senv denv fenv st fuel
        = ⟨.aborted "Could not find p_auth token on the page. The site structure may have changed.",
           [], [], [], [], st⟩) ∧
    (∀ (senv : Scraper.SearchEnv) (denv : Scraper.DetailEnv) (fenv : HttpEnv)
        (st : Store) (fuel : Nat),
      Scraper.scrape_labels .err senv denv fenv st fuel
        = ⟨.noAuth, [], [], [], [], st⟩) ∧
    (∀ (senv : Scraper.SearchEnv) (denv : Scraper.DetailEnv) (fenv : HttpEnv)
        (st : Store) (fuel : Nat),
      Scraper.scrape_labels (.page (some "")) senv denv fenv st fuel
        = ⟨.noAuth, [], [], [], [], st⟩) ∧
    (∀ v : String, Scraper.get_session_params (.page (some v)) = .ok (some v)) ∧
    (∀ (v : String) (senv : Scraper.SearchEnv) (denv : Scraper.DetailEnv)
        (fenv : HttpEnv) (st : Store) (fuel : Nat), v ≠ "" →
      (Scraper.scrape_labels (.page (some v)) senv denv fenv st fuel).outcome
        = .completed v) := by
  refine ⟨fun _ _ _ _ _ => rfl, fun _ _ _ _ _ => rfl, fun _ _ _ _ _ => rfl,
    fun _ => rfl, ?_⟩
  intro v senv denv fenv st fuel hv
  simp [Scraper.scrape_labels, Scraper.get_session_params, hv]

/-- Witness for claim C8: a run with the non-empty token value `tok`
completes carrying that token. -/
theorem c8_auth_failure_aborts_witness :
    ("tok" : String) ≠ "" ∧
    (Scraper.scrape_labels (.page (some "tok")) senvRep denv9 envOk9 [] 3).outcome
      = .completed "tok" :=
  ⟨by decide,
   c8_auth_failure_aborts.2.2.2.2 "tok" senvRep denv9 envOk9 [] 3 (by decide)⟩

/-- Existence on disk is membership among the store's filenames. -/
theorem hasFile_iff (store : Store) (f : String) :
    hasFile store f = true ↔ f ∈ storeNames store := by
  simp only [hasFile, storeNames, List.any_eq_true, beq_iff_eq, List.mem_map]

/-- The portal downloader never removes a file from the Document Store. -/
theorem scraper_download_mem_names (fenv : HttpEnv) (store : Store) (u f x : String)
    (h : x ∈ storeNames store) :
    x ∈ storeNames (Scraper.download_pdf fenv store u f).2.1 := by
  unfold Scraper.download_pdf
  simp only [storeNames] at h
  cases fenv u <;>
    simp only [storeNames, storeWrite, List.map_cons] <;>
    first
      | exact h
      | exact List.mem_cons_of_mem _ h

/-- One per-product iteration never removes a file from the Document
Store. -/
theorem processProduct_mem_names (denv : Scraper.DetailEnv) (fenv : HttpEnv)
    (store : Store) (u x : String) (h : x ∈ storeNames store) :
    x ∈ storeNames (Scraper.processProduct denv fenv store u).1 := by
  unfold Scraper.processProduct
  cases denv u with
  | err => exact h
  | page o =>
    cases o with
    | none => exact h
    | some href =>
      by_cases he : href = ""
      · simp only [if_pos he]
        exact h
      · simp only [if_neg he]
        by_cases hf : hasFile store (Scraper.resolve_pdf href).2
        · simp only [if_pos hf]
          exact h
        · simp only [if_neg hf]
          exact scraper_download_mem_names fenv store _ _ x h

/-- The per-product loop never removes a file from the Document Store. -/
theorem processProducts_mem_names (denv : Scraper.DetailEnv) (fenv : HttpEnv) :
    ∀ (links : List String) (store : Store) (x : String), x ∈ storeNames store →
      x ∈ storeNames (Scraper.processProducts denv fenv store links).1 := by
  intro links
  induction links with
  | nil => intro store x h; exact h
  | cons v vs ih =>
    intro store x h
    exact ih _ x (processProduct_mem_names denv fenv store v x h)

/-- A product whose detail page resolves to a non-empty e-label href and
whose document GET succeeds ends its own iteration with a file of that
name in the Document Store (freshly downloaded, or already present). -/
theorem processProduct_success (denv : Scraper.DetailEnv) (fenv : HttpEnv)
    (store : Store) (u href : String) (chunks : List Chunk)
    (h1 : denv u = .page (some href)) (h2 : href ≠ "")
    (h3 : fenv (Scraper.resolve_pdf href).1 = .ok chunks) :
    (Scraper.resolve_pdf href).2
      ∈ storeNames (Scraper.processProduct denv fenv store u).1 := by
  unfold Scraper.processProduct
  rw [h1]
  simp only [if_neg h2]
  by_cases hf : hasFile store (Scraper.resolve_pdf href).2
  · simp only [if_pos hf]
    exact (hasFile_iff store _).mp hf
  · simp only [if_neg hf]
    unfold Scraper.download_pdf
    rw [h3]
    simp [storeNames, storeWrite]

/-- The per-product loop requests every product's detail page, whatever
the network does. -/
theorem processProducts_detail (denv : Scraper.DetailEnv) (fenv : HttpEnv) :
    ∀ (links : List String) (store : Store),
      (Scraper.processProducts denv fenv store links).2.1 = links := by
  intro links
  induction links with
  | nil => intro store; rfl
  | cons v vs ih =>
    intro store
    show v :: (Scraper.processProducts denv fenv _ vs).2.1 = v :: vs
    rw [ih]

/-- Claim C9: the per-product loop continues past each individual failure —
every link's detail page is requested — and any product whose own
resolution and fetch succeed ends the run with its file in the Document
Store, regardless of failures of the other products. -/
theorem c9_per_product_isolation (denv : Scraper.DetailEnv) (fenv : HttpEnv)
    (store : Store) (links : List String) :
    (Scraper.processProducts denv fenv store links).2.1 = links ∧
    ∀ (u href : String) (chunks : List Chunk), u ∈ links →
      denv u = .page (some href) → href ≠ "" →
      fenv (Scraper.resolve_pdf href).1 = .ok chunks →
      (Scraper.resolve_pdf href).2
        ∈ storeNames (Scraper.processProducts denv fenv store links).1 := by
  refine ⟨processProducts_detail denv fenv links store, ?_⟩
  intro u href chunks hu h1 h2 h3
  induction links generalizing store with
  | nil => cases hu
  | cons v vs ih =>
    have hrec : (Scraper.processProducts denv fenv store (v :: vs)).1
        = (Scraper.processProducts denv fenv
            (Scraper.processProduct denv fenv store v).1 vs).1 := rfl
    rw [hrec]
    rcases List.mem_cons.mp hu with rfl | hu2
    · exact processProducts_mem_names denv fenv vs _ _
        (processProduct_success denv fenv store u href chunks h1 h2 h3)
    · exact ih _ hu2

/-- Witness for claim C9: the detail fetch of `pA` fails, yet `pB`
resolves and downloads, leaving `b.pdf` in the store. -/
theorem c9_per_product_isolation_witness :
    ("pB" ∈ links9) ∧ denv9 "pB" = .page (some "/files/b.pdf") ∧
    ("/files/b.pdf" ≠ "") ∧
    envOk9 (Scraper.resolve_pdf "/files/b.pdf").1 = .ok [[9]] ∧
    (Scraper.resolve_pdf "/files/b.pdf").2
      ∈ storeNames (Scraper.processProducts denv9 envOk9 [] links9).1 :=
  ⟨by decide, by decide, by decide, rfl,
   (c9_per_product_isolation denv9 envOk9 [] links9).2 "pB" "/files/b.pdf" [[9]]
     (by decide) (by decide) (by decide) rfl⟩

/-- No product selected under a seen-set has its actives string in that
set, and the selected actives strings are pairwise distinct. -/
theorem selectProducts_actives (rows : List CsvScraper.CsvRow) :
    ∀ seen : List String,
      (∀ p ∈ CsvScraper.selectProducts rows seen, p.actives ∉ seen) ∧
      ((CsvScraper.selectProducts rows seen).map (fun p => p.actives)).Nodup := by
  induction rows with
  | nil =>
    intro seen
    exact ⟨by simp [CsvScraper.selectProducts], by simp [CsvScraper.selectProducts]⟩
  | cons r rs ih =>
    intro seen
    by_cases h1 : pystrip r.actives = "" ∨ pystrip r.no = ""
    · simpa [CsvScraper.selectProducts, h1] using ih seen
    · by_cases h2 : pystrip r.actives ∈ seen
      · have hsel : CsvScraper.selectProducts (r :: rs) seen
            = CsvScraper.selectProducts rs seen := by
          simp [CsvScraper.selectProducts, h1, h2]
        rw [hsel]
        exact ih seen
      · have hsel : CsvScraper.selectProducts (r :: rs) seen
            = CsvScraper.mkProduct r
              :: CsvScraper.selectProducts rs (pystrip r.actives :: seen) := by
          simp [CsvScraper.selectProducts, h1, h2]
        rw [hsel]
        obtain ⟨ihA, ihN⟩ := ih (pystrip r.actives :: seen)
        constructor
        · intro p hp
          rcases List.mem_cons.mp hp with rfl | hp2
          · simpa [CsvScraper.mkProduct] using h2
          · intro hin
            exact ihA p hp2 (List.mem_cons_of_mem _ hin)
        · simp only [List.map_cons, List.nodup_cons]
          refine ⟨?_, ihN⟩
          intro hmem
          rw [List.mem_map] at hmem
          obtain ⟨q, hq, heq⟩ := hmem
          refine ihA q hq ?_
          rw [heq]
          simp [CsvScraper.mkProduct]

/-- Every selected product has a non-empty (stripped) actives string and a
non-empty (stripped) product number. -/
theorem selectProducts_fields (rows : List CsvScraper.CsvRow) :
    ∀ (seen : List String) (p : CsvScraper.Product),
      p ∈ CsvScraper.selectProducts rows seen → p.actives ≠ "" ∧ p.no ≠ "" := by
  induction rows with
  | nil => intro seen p hp; simp [CsvScraper.selectProducts] at hp
  | cons r rs ih =>
    intro seen p hp
    by_cases h1 : pystrip r.actives = "" ∨ pystrip r.no = ""
    · rw [show CsvScraper.selectProducts (r :: rs) seen
          = CsvScraper.selectProducts rs seen from by
        simp [CsvScraper.selectProducts, h1]] at hp
      exact ih seen p hp
    · by_cases h2 : pystrip r.actives ∈ seen
      · rw [show CsvScraper.selectProducts (r :: rs) seen
            = CsvScraper.selectProducts rs seen from by
          simp [CsvScraper.selectProducts, h1, h2]] at hp
        exact ih seen p hp
      · rw [show CsvScraper.selectProducts (r :: rs) seen
            = CsvScraper.mkProduct r
              :: CsvScraper.selectProducts rs (pystrip r.actives :: seen) from by
          simp [CsvScraper.selectProducts, h1, h2]] at hp
        rcases List.mem_cons.mp hp with rfl | hp2
        · push_neg at h1
          exact ⟨by simpa [CsvScraper.mkProduct] using h1.1,
                 by simpa [CsvScraper.mkProduct] using h1.2⟩
        · exact ih _ p hp2

/-- For a non-empty actives string not yet seen, the product the selection
finds for it is built from the first row whose stripped actives string is
that value and whose stripped product number is non-empty. -/
theorem selectProducts_find (rows : List CsvScraper.CsvRow) :
    ∀ (seen : List String) (a : String), a ≠ "" → a ∉ seen →
      (CsvScraper.selectProducts rows seen).find? (fun p => p.actives == a)
        = (rows.find? (fun r => pystrip r.actives == a && pystrip r.no != "")).map
            CsvScraper.mkProduct := by
  induction rows with
  | nil => intro seen a ha hs; rfl
  | cons r rs ih =>
    intro seen a ha hs
    by_cases h1 : pystrip r.actives = "" ∨ pystrip r.no = ""
    · have hpred : (pystrip r.actives == a && pystrip r.no != "") = false := by
        rcases h1 with h | h
        · simp [h, Ne.symm ha]
        · simp [h]
      rw [show CsvScraper.selectProducts (r :: rs) seen
          = CsvScraper.selectProducts rs seen from by
        simp [CsvScraper.selectProducts, h1]]
      rw [List.find?_cons_of_neg rs (by simp [hpred]), ih seen a ha hs]
    · by_cases h2 : pystrip r.actives ∈ seen
      · have hne : pystrip r.actives ≠ a := fun he => hs (he ▸ h2)
        rw [show CsvScraper.selectProducts (r :: rs) seen
            = CsvScraper.selectProducts rs seen from by
          simp [CsvScraper.selectProducts, h1, h2]]
        rw [List.find?_cons_of_neg rs (by simp [hne]), ih seen a ha hs]
      · rw [show CsvScraper.selectProducts (r :: rs) seen
            = CsvScraper.mkProduct r
              :: CsvScraper.selectProducts rs (pystrip r.actives :: seen) from by
          simp [CsvScraper.selectProducts, h1, h2]]
        push_neg at h1
        by_cases heq : pystrip r.actives = a
        · rw [List.find?_cons_of_pos _ (by simp [CsvScraper.mkProduct, heq])]
          rw [List.find?_cons_of_pos rs (by simp [heq, h1.2])]
          rfl
        · have hnotin : a ∉ pystrip r.actives :: seen := by
            intro hmem
            rcases List.mem_cons.mp hmem with he | he
            · exact heq he.symm
            · exact hs he
          rw [List.find?_cons_of_neg _ (by simp [CsvScraper.mkProduct, heq])]
          rw [List.find?_cons_of_neg rs (by simp [heq])]
          exact ih _ a ha hnotin

/-- Claim C10: the CSV selection keeps at most one product per actives
string (the selected actives are pairwise distinct); every selected
product has non-empty stripped fields; for each non-empty actives string
the product found is built from the first row in file order with that
(stripped) actives value and a non-empty (stripped) `No`; the run requests
only the selected products' target URLs in order; and the target filename
and URL of a product are `<No>ELBL.pdf` and the base URL followed by that
filename. -/
theorem c10_csv_selection (rows : List CsvScraper.CsvRow) :
    ((CsvScraper.selectProducts rows []).map (fun p => p.actives)).Nodup ∧
    (∀ p ∈ CsvScraper.selectProducts rows [], p.actives ≠ "" ∧ p.no ≠ "") ∧
    (∀ a : String, a ≠ "" →
      (CsvScraper.selectProducts rows []).find? (fun p => p.actives == a)
        = (rows.find? (fun r => pystrip r.actives == a && pystrip r.no != "")).map
            CsvScraper.mkProduct) ∧
    (∀ (env : HttpEnv) (store : Store),
      List.Sublist (CsvScraper.process_csv env rows store).2.2
        ((CsvScraper.selectProducts rows []).map CsvScraper.targetUrl)) ∧
    (∀ p : CsvScraper.Product,
      CsvScraper.targetFilename p = p.no ++ "ELBL.pdf" ∧
      CsvScraper.targetUrl p = CsvScraper.BASE_URL ++ (p.no ++ "ELBL.pdf")) :=
  ⟨(selectProducts_actives rows []).2,
   fun p hp => selectProducts_fields rows [] p hp,
   fun a ha => selectProducts_find rows [] a ha (by simp),
   fun env store => runDownloads_requests_sublist env store _,
   fun _ => ⟨rfl, rfl⟩⟩

/-- Witness for claim C10: on a CSV with empty-field rows and a repeated
actives string, the product selected for `A` comes from the first valid
row — number 7 — not from the empty-`No` row before it or the number-8 row
after it. -/
theorem c10_csv_selection_witness :
    ("A" : String) ≠ "" ∧
    (CsvScraper.selectProducts rowsMixed []).find? (fun p => p.actives == "A")
      = some ⟨"7", "A", "c"⟩ :=
  ⟨by decide, by
    rw [(c10_csv_selection rowsMixed).2.2.1 "A" (by decide)]
    decide⟩
